import Mathlib

/-!
Verification development for the dummydata petroleum fixture generator.

Shallow embedding conventions:
* Python floats are modelled as rationals (`ℚ`); `round(x, n)` becomes
  `pyRound x n` (round to nearest, scaled by a power of ten).
* The global random source is modelled by an explicit oracle of draw
  streams.  `random.randint(a, b)` consumes a natural draw and maps it
  into the interval by remainder; `random.choice` consumes a natural
  draw and indexes the list; `random.random()` and `random.uniform`
  consume a rational draw whose fractional part lands in the unit
  interval.  Range guarantees of the Python primitives are therefore
  theorems of the model, not hypotheses.
* CSV fields are modelled by `Cell`: a written record is a list of
  cells, where a numeric cell stands for the locale-invariant decimal
  text of that number (Python's float/int text round-trips exactly
  through `str` and `float`/`int`, which the cell-level parse mirrors).
* Fallible code returns `Option`.
-/

namespace DummyData

/-! ## Python modelling primitives -/

/-- Python `round(q, n)`: round to `n` decimal places (nearest integer of the
scaled value; the model uses round-half-up at exact ties, which never arise
in the properties proved here). -/
def pyRound (q : ℚ) (n : ℕ) : ℚ := (round (q * 10 ^ n) : ℤ) / 10 ^ n

/-- Python `random.random()`: the draw `t` is folded into `[0, 1)`. -/
def pyRandom (t : ℚ) : ℚ := Int.fract t

/-- Python `random.uniform(a, b)`: `a + (b - a) * random()`. -/
def pyUniform (a b t : ℚ) : ℚ := a + (b - a) * pyRandom t

/-- Python `random.randint(a, b)` (inclusive bounds): the draw `d` is folded
into `[a, b]` by remainder. -/
def randint (a b d : ℕ) : ℕ := a + d % (b - a + 1)

/-- Python `random.choice(l)`: the draw `d` is folded into an index of `l`.
On an empty list Python raises; the model returns the default. -/
def pyChoice {α : Type} (l : List α) (dflt : α) (d : ℕ) : α :=
  l.getD (d % l.length) dflt

/-! ## Decimal rendering of naturals (Python `str` / format specifiers) -/

/-- The character for a single decimal digit. -/
def digitChar10 (d : ℕ) : Char :=
  if d = 0 then '0' else if d = 1 then '1' else if d = 2 then '2'
  else if d = 3 then '3' else if d = 4 then '4' else if d = 5 then '5'
  else if d = 6 then '6' else if d = 7 then '7' else if d = 8 then '8'
  else '9'

/-- Little-endian decimal digits of `n` as characters, with fuel for
structural recursion (fuel `n + 1` always suffices). -/
def natDigitsAux : ℕ → ℕ → List Char
  | 0, _ => []
  | fuel + 1, n => if n = 0 then [] else digitChar10 (n % 10) :: natDigitsAux fuel (n / 10)

/-- Python `str(n)` for a natural number. -/
def natRepr (n : ℕ) : String :=
  if n = 0 then "0" else ⟨(natDigitsAux (n + 1) n).reverse⟩

/-- Python `str(i)` for an integer. -/
def intRepr (i : ℤ) : String :=
  if i < 0 then "-" ++ natRepr i.natAbs else natRepr i.natAbs

/-- Zero left-padding to width `w`, as Python's zero-padded format
specifier produces. -/
def zfill (w : ℕ) (s : String) : String :=
  ⟨List.replicate (w - s.data.length) '0' ++ s.data⟩

/-- Python `f-string` fragment for a 0-padded natural of width `w`. -/
def fmt0 (w n : ℕ) : String := zfill w (natRepr n)

/-! ## Decimal parsing (Python `int` / `float` on strings) -/

/-- Accumulate the value of a decimal digit string (most significant first). -/
def digitStep (a : ℕ) (c : Char) : ℕ := 10 * a + (c.toNat - 48)

/-- Value of a list of decimal digit characters. -/
def digitsVal (cs : List Char) : ℕ := cs.foldl digitStep 0

/-- Value of a decimal digit string. -/
def parseNatStr (s : String) : ℕ := digitsVal s.data

/-- Strip surrounding whitespace from a character list (Python `str.strip`). -/
def stripChars (cs : List Char) : List Char :=
  ((cs.dropWhile Char.isWhitespace).reverse.dropWhile Char.isWhitespace).reverse

/-- Parse an unsigned decimal literal into integer part, fraction part and
fraction length; `none` when the text is not a decimal literal.  This is the
digit core of Python `float`; exponent forms are outside the model. -/
def parseDecParts? (cs : List Char) : Option (ℕ × ℕ × ℕ) :=
  let intPart := cs.takeWhile Char.isDigit
  let rest := cs.dropWhile Char.isDigit
  match rest with
  | [] => if intPart.isEmpty then none else some (digitsVal intPart, 0, 0)
  | '.' :: frac =>
    if frac.all Char.isDigit && (!intPart.isEmpty || !frac.isEmpty) then
      some (digitsVal intPart, digitsVal frac, frac.length)
    else none
  | _ => none

/-- Signed decimal parts: the Boolean is true for a negative literal. -/
def parseSignedParts? (s : String) : Option (Bool × ℕ × ℕ × ℕ) :=
  match stripChars s.data with
  | '-' :: rest => (parseDecParts? rest).map (fun p => (true, p))
  | '+' :: rest => (parseDecParts? rest).map (fun p => (false, p))
  | cs => (parseDecParts? cs).map (fun p => (false, p))

/-- The rational value of signed decimal parts. -/
def partsVal (p : Bool × ℕ × ℕ × ℕ) : ℚ :=
  let v : ℚ := (p.2.1 : ℚ) + (p.2.2.1 : ℚ) / 10 ^ p.2.2.2
  if p.1 then -v else v

/-- Python `float(s)` on a string (decimal literals). -/
def pyFloatOfString? (s : String) : Option ℚ :=
  (parseSignedParts? s).map partsVal

/-- Python `int(s)` on a string: optional sign, then digits only. -/
def pyIntOfString? (s : String) : Option ℤ :=
  match stripChars s.data with
  | '-' :: rest => if !rest.isEmpty && rest.all Char.isDigit then some (-(digitsVal rest : ℤ)) else none
  | '+' :: rest => if !rest.isEmpty && rest.all Char.isDigit then some (digitsVal rest : ℤ) else none
  | cs => if !cs.isEmpty && cs.all Char.isDigit then some (digitsVal cs : ℤ) else none

/-! ## Calendar (Python `calendar` / `datetime.date`) -/

/-- A calendar date. -/
structure Date where
  year : ℕ
  month : ℕ
  day : ℕ
deriving DecidableEq, Repr

/-- Gregorian leap-year rule, as in `calendar.isleap`. -/
def isLeapYear (y : ℕ) : Bool :=
  y % 4 = 0 && (y % 100 ≠ 0 || y % 400 = 0)

/-- Number of days in a month, as returned by `calendar.monthrange(y, m)[1]`. -/
def daysInMonth (y m : ℕ) : ℕ :=
  if m = 2 then (if isLeapYear y then 29 else 28)
  else if m = 4 ∨ m = 6 ∨ m = 9 ∨ m = 11 then 30
  else 31

/-- `datetime.date + timedelta(days=1)` on a valid date. -/
def Date.nextDay (d : Date) : Date :=
  if d.day < daysInMonth d.year d.month then ⟨d.year, d.month, d.day + 1⟩
  else if d.month < 12 then ⟨d.year, d.month + 1, 1⟩
  else ⟨d.year + 1, 1, 1⟩

/-- `datetime.date` comparison (lexicographic on year, month, day). -/
def dateLeP (a b : Date) : Prop :=
  a.year < b.year ∨ (a.year = b.year ∧
    (a.month < b.month ∨ (a.month = b.month ∧ a.day ≤ b.day)))

instance : DecidableRel dateLeP := fun a b => by
  unfold dateLeP; infer_instance

instance : IsTotal Date dateLeP := ⟨fun a b => by unfold dateLeP; omega⟩

instance : IsTrans Date dateLeP := ⟨fun a b c => by unfold dateLeP; omega⟩

/-- `date.strftime('%m/%d/%Y')`. -/
def formatDate (d : Date) : String :=
  fmt0 2 d.month ++ "/" ++ fmt0 2 d.day ++ "/" ++ fmt0 4 d.year

/-! ## CSV cells

A `Cell` is one field of a CSV record.  Python writes records whose fields
may be strings, ints or floats; the csv layer stringifies each field, and
numeric text written this way parses back to the same value.  A numeric
cell therefore stands for that decimal text. -/

/-- One CSV field: a string, an integer value, or a float value. -/
inductive Cell where
  | str (s : String)
  | int (i : ℤ)
  | num (q : ℚ)
deriving DecidableEq

/-- The text of a cell (Python `str` of the field). -/
def Cell.text : Cell → String
  | .str s => s
  | .int i => intRepr i
  | .num q => toString q

/-- Python truthiness of the cell's text (empty string is falsy; numeric
text is never empty). -/
def Cell.truthy : Cell → Bool
  | .str s => !(s == "")
  | .int _ => true
  | .num _ => true

/-- Whether the cell's text strips to the empty string (`not s.strip()`);
numeric text never does. -/
def Cell.stripEmpty : Cell → Bool
  | .str s => s.data.all Char.isWhitespace
  | .int _ => false
  | .num _ => false

/-- Python `s.isdigit()` on the cell's text: a nonnegative integer's text is
all digits; a float's text never is (it contains a point). -/
def Cell.isdigit : Cell → Bool
  | .str s => !s.data.isEmpty && s.data.all Char.isDigit
  | .int i => decide (0 ≤ i)
  | .num _ => false

/-- Python `int(...)` applied to the cell's text; `none` models a raised
`ValueError` (a float's text contains a point, so `int` rejects it). -/
def Cell.toInt? : Cell → Option ℤ
  | .str s => pyIntOfString? s
  | .int i => some i
  | .num _ => none

/-- Python `float(...)` applied to the cell's text; exact for numeric cells
because float text round-trips through `str` and `float`. -/
def Cell.toFloat? : Cell → Option ℚ
  | .str s => pyFloatOfString? s
  | .int i => some (i : ℚ)
  | .num q => some q

/-- The integer value of a cell already known to satisfy `isdigit`. -/
def Cell.digitVal : Cell → ℤ
  | .str s => (digitsVal s.data : ℤ)
  | .int i => i
  | .num _ => 0

/-! ## Models: Product, Sequence, Customer -/

/-- `dummydata.models.product.Product`. -/
structure Product where
  code : String
  name : String
  abbr : String := ""
  product_group : String := "Fuel"
  cycle_code : String := ""
  method : String := "Direct"
  account_group : String := ""
  tax_profile : String := ""
  tax_group : String := ""
  packaging : String := "Bulk"
  unit_of_measure : String := "Gallon"
  status : String := "Active"
  stocked : String := "Yes"
  upc_code : String := ""
  min_price : ℚ := 0
  max_price : ℚ := 0
deriving DecidableEq

/-- `Product.from_row`: raises (`none`) when fewer than two fields; fills
descriptive fields with defaults; then draws a fresh price band
(`round(uniform(2.50, 3.20), 2)` and `round(uniform(3.50, 4.50), 2)`),
whose two uniform draws are the explicit arguments. -/
def Product.from_row (row : List Cell) (minDraw maxDraw : ℚ) : Option Product :=
  if row.length < 2 then none
  else some
    { code := (row.getD 0 (.str "")).text
      name := (row.getD 1 (.str "")).text
      abbr := if 2 < row.length then (row.getD 2 (.str "")).text else ""
      product_group := if 3 < row.length then (row.getD 3 (.str "")).text else "Fuel"
      cycle_code := if 4 < row.length then (row.getD 4 (.str "")).text else ""
      method := if 5 < row.length then (row.getD 5 (.str "")).text else "Direct"
      account_group := if 6 < row.length then (row.getD 6 (.str "")).text else ""
      tax_profile := if 7 < row.length then (row.getD 7 (.str "")).text else ""
      tax_group := if 8 < row.length then (row.getD 8 (.str "")).text else ""
      packaging := if 9 < row.length then (row.getD 9 (.str "")).text else "Bulk"
      unit_of_measure := if 10 < row.length then (row.getD 10 (.str "")).text else "Gallon"
      status := if 11 < row.length then (row.getD 11 (.str "")).text else "Active"
      stocked := if 12 < row.length then (row.getD 12 (.str "")).text else "Yes"
      upc_code := if 13 < row.length then (row.getD 13 (.str "")).text else ""
      min_price := pyRound (pyUniform (5/2) (16/5) minDraw) 2
      max_price := pyRound (pyUniform (7/2) (9/2) maxDraw) 2 }

/-- `Product.to_row`: the fourteen descriptive fields as strings (the price
band is not serialized). -/
def Product.to_row (p : Product) : List Cell :=
  [.str p.code, .str p.name, .str p.abbr, .str p.product_group,
   .str p.cycle_code, .str p.method, .str p.account_group, .str p.tax_profile,
   .str p.tax_group, .str p.packaging, .str p.unit_of_measure, .str p.status,
   .str p.stocked, .str p.upc_code]

/-- `Product.get_random_price`: uniform in the product's band, rounded to
cents. -/
def Product.get_random_price (p : Product) (t : ℚ) : ℚ :=
  pyRound (pyUniform p.min_price p.max_price t) 2

/-- `dummydata.models.customer.Sequence`. -/
structure Sequence where
  seq_id : ℤ
  description : String
deriving DecidableEq

/-- `dummydata.models.customer.Customer`. -/
structure Customer where
  customer_id : String
  name : String
  address : String := ""
  city : String := ""
  state : String := ""
  zip_code : String := ""
  contact_name : String := ""
  phone : String := ""
  email : String := ""
  sequences : List Sequence := []
deriving DecidableEq

/-- `Customer.from_row`: raises (`none`) when fewer than two fields; trailing
fields default to the empty string; sequences are not part of the row. -/
def Customer.from_row (row : List Cell) : Option Customer :=
  if row.length < 2 then none
  else some
    { customer_id := (row.getD 0 (.str "")).text
      name := (row.getD 1 (.str "")).text
      address := if 2 < row.length then (row.getD 2 (.str "")).text else ""
      city := if 3 < row.length then (row.getD 3 (.str "")).text else ""
      state := if 4 < row.length then (row.getD 4 (.str "")).text else ""
      zip_code := if 5 < row.length then (row.getD 5 (.str "")).text else ""
      contact_name := if 6 < row.length then (row.getD 6 (.str "")).text else ""
      phone := if 7 < row.length then (row.getD 7 (.str "")).text else ""
      email := if 8 < row.length then (row.getD 8 (.str "")).text else "" }

/-- `Customer.to_row`: the nine contact fields as strings. -/
def Customer.to_row (c : Customer) : List Cell :=
  [.str c.customer_id, .str c.name, .str c.address, .str c.city, .str c.state,
   .str c.zip_code, .str c.contact_name, .str c.phone, .str c.email]

/-! ## Model: Order -/

/-- Python `Union[datetime.date, str]` for the order's date fields. -/
inductive DateVal where
  | date (d : Date)
  | str (s : String)
deriving DecidableEq

/-- Python `Union[float, str]` for the charge fields: a number, or a string
(the empty string means "not applicable"). -/
inductive FloatStr where
  | num (q : ℚ)
  | str (s : String)
deriving DecidableEq

/-- The numeric value of a charge field: `float(x)` when the value is a
number, `0.0` otherwise (`isinstance(x, (int, float))` test). -/
def FloatStr.numValue : FloatStr → ℚ
  | .num q => q
  | .str _ => 0

/-- `dummydata.models.order.Order`. -/
structure Order where
  customer_name : String
  order_number : String
  sequence_id : ℤ
  sequence_desc : String
  date : DateVal
  product_name : String
  unit_price : ℚ
  quantity : ℤ
  status : String := "Completed"
  po_required : String := "No"
  po_number : String := ""
  invoice_number : String := ""
  invoice_date : Option DateVal := none
  bol : String := ""
  additional_product : String := ""
  charges : FloatStr := .str ""
  special_charges : FloatStr := .str ""
  total_taxes : ℚ := 0
  exempt_taxes : ℚ := 0
  total : ℚ := 0
  total_cost : ℚ := 0
  margin_per_gallon : ℚ := 0
deriving DecidableEq

/-- `Order.calculate_totals`.  The two uniform draws it makes
(`uniform(0.05, 0.10)` for the tax rate and `uniform(0, total_taxes * 0.3)`
for the exempt taxes) are passed as explicit draw arguments. -/
def Order.calculate_totals (o : Order) (taxDraw exemptDraw : ℚ) : Order :=
  let main_charges := pyRound (o.unit_price * o.quantity) 2
  let additional_charges := o.charges.numValue
  let special_charges := o.special_charges.numValue
  let tax_rate := pyUniform (5/100) (10/100) taxDraw
  let total_taxes := pyRound (main_charges * tax_rate) 2
  let exempt_taxes := pyRound (pyUniform 0 (total_taxes * (3/10)) exemptDraw) 2
  let total := main_charges + additional_charges + special_charges + total_taxes - exempt_taxes
  let total_cost := pyRound (main_charges * (85/100)) 2
  let margin_per_gallon :=
    if 0 < o.quantity then pyRound ((main_charges - total_cost) / o.quantity) 3 else 0
  { o with
      total_taxes := total_taxes
      exempt_taxes := exempt_taxes
      total := total
      total_cost := total_cost
      margin_per_gallon := margin_per_gallon }

/-- The CSV cell carrying a charge field: its number, or its string. -/
def FloatStr.toCell : FloatStr → Cell
  | .num q => Cell.num q
  | .str s => Cell.str s

/-- `Order.to_row`: the 22 output fields; dates format as `%m/%d/%Y`, an
absent or falsy invoice date serializes as the empty string. -/
def Order.to_row (o : Order) : List Cell :=
  let date_str := match o.date with
    | .str s => s
    | .date d => formatDate d
  let invoice_date_str := match o.invoice_date with
    | none => ""
    | some (.str s) => s
    | some (.date d) => formatDate d
  [.str o.customer_name, .str o.order_number, .int o.sequence_id,
   .str o.sequence_desc, .str o.po_number, .str o.po_required, .str date_str,
   .str o.status, .str o.invoice_number, .str invoice_date_str, .str o.bol,
   .str o.product_name, .num o.unit_price, .int o.quantity,
   .str o.additional_product, o.charges.toCell, o.special_charges.toCell,
   .num o.total_taxes, .num o.total, .num o.exempt_taxes, .num o.total_cost,
   .num o.margin_per_gallon]

/-- The numeric fields parsed inside `Order.from_row`'s try block. -/
structure NumFields where
  unit_price : ℚ
  quantity : ℤ
  charges : FloatStr
  special_charges : FloatStr
  total_taxes : ℚ
  total : ℚ
  exempt_taxes : ℚ
  total_cost : ℚ
  margin_per_gallon : ℚ
deriving DecidableEq

/-- The zero-value defaults installed by the `except` clause. -/
def defaultNumFields : NumFields :=
  { unit_price := 0, quantity := 0, charges := .str "", special_charges := .str ""
    total_taxes := 0, total := 0, exempt_taxes := 0, total_cost := 0
    margin_per_gallon := 0 }

/-- The charge field as kept by `from_row` when it is empty or whitespace. -/
def Cell.toFloatStr : Cell → FloatStr
  | .str s => .str s
  | .num q => .num q
  | .int i => .num (i : ℚ)

/-- The conditional expression parsing one charge field inside the try
block: keep the text when it is empty or strips to empty, otherwise
`float(...)` it (`none` models the raised `ValueError`). -/
def parseChargeCell (c : Cell) : Option FloatStr :=
  if !c.truthy || c.stripEmpty then some c.toFloatStr
  else (c.toFloat?).map FloatStr.num

/-- The try block of `Order.from_row`: parse the numeric fields in source
order; `none` models a raised `ValueError` or `IndexError` (caught by the
enclosing except). -/
def parseNumericFields (row : List Cell) : Option NumFields := do
  let c12 ← row[12]?
  let unit_price ← if c12.truthy then c12.toFloat? else some 0
  let c13 ← row[13]?
  let quantity ← if c13.truthy then c13.toInt? else some 0
  let c15 ← row[15]?
  let charges ← parseChargeCell c15
  let c16 ← row[16]?
  let special_charges ← parseChargeCell c16
  let c17 ← row[17]?
  let total_taxes ← if c17.truthy then c17.toFloat? else some 0
  let c18 ← row[18]?
  let total ← if c18.truthy then c18.toFloat? else some 0
  let c19 ← row[19]?
  let exempt_taxes ← if c19.truthy then c19.toFloat? else some 0
  let c20 ← row[20]?
  let total_cost ← if c20.truthy then c20.toFloat? else some 0
  let c21 ← row[21]?
  let margin_per_gallon ← if c21.truthy then c21.toFloat? else some 0
  some { unit_price := unit_price, quantity := quantity, charges := charges
         special_charges := special_charges, total_taxes := total_taxes
         total := total, exempt_taxes := exempt_taxes, total_cost := total_cost
         margin_per_gallon := margin_per_gallon }

/-- `Order.from_row`: raises (`none`) when fewer than 14 fields; numeric
parsing failures fall back collectively to the zero-value defaults; the
remaining fields are taken as text. -/
def Order.from_row (row : List Cell) : Option Order :=
  if row.length < 14 then none
  else
    let nf := (parseNumericFields row).getD defaultNumFields
    some
      { customer_name := (row.getD 0 (.str "")).text
        order_number := (row.getD 1 (.str "")).text
        sequence_id := if (row.getD 2 (.str "")).isdigit then (row.getD 2 (.str "")).digitVal else 0
        sequence_desc := (row.getD 3 (.str "")).text
        po_number := (row.getD 4 (.str "")).text
        po_required := (row.getD 5 (.str "")).text
        date := .str (row.getD 6 (.str "")).text
        status := (row.getD 7 (.str "")).text
        invoice_number := (row.getD 8 (.str "")).text
        invoice_date := some (.str (row.getD 9 (.str "")).text)
        bol := (row.getD 10 (.str "")).text
        product_name := (row.getD 11 (.str "")).text
        unit_price := nf.unit_price
        quantity := nf.quantity
        additional_product := if 14 < row.length then (row.getD 14 (.str "")).text else ""
        charges := nf.charges
        special_charges := nf.special_charges
        total_taxes := nf.total_taxes
        total := nf.total
        exempt_taxes := nf.exempt_taxes
        total_cost := nf.total_cost
        margin_per_gallon := nf.margin_per_gallon }

/-! ## Configuration (`dummydata.config`) -/

/-- `STANDARD_CHARGES`: the fixed lookup of named standard charges. -/
def STANDARD_CHARGES : List (String × ℚ) :=
  [("Labor Charge", 85), ("Pump Fee", 45), ("After Hours Fee", 125),
   ("Weekend Delivery", 75), ("Rush Delivery", 95)]

/-- `list(STANDARD_CHARGES.keys())`. -/
def standard_charge_names : List String := STANDARD_CHARGES.map Prod.fst

/-- Dictionary access `STANDARD_CHARGES[name]` (every looked-up name is a
key, so the default is never returned). -/
def standardChargeValue (name : String) : ℚ :=
  ((STANDARD_CHARGES.find? (fun p => p.1 == name)).getD ("", 0)).2

/-! ## Order synthesis (`dummydata.generators.data_generator`) -/

/-- The sequential draws of the shared global random source, split by the
purpose of each call site and indexed by the per-order loop counter. -/
structure RandomOracle where
  dayDraw : ℕ → ℕ
  custDraw : ℕ → ℕ
  seqDraw : ℕ → ℕ
  poDraw : ℕ → ℕ
  statusDraw : ℕ → ℕ
  prodDraw : ℕ → ℕ
  priceDraw : ℕ → ℚ
  qtyDraw : ℕ → ℕ
  addChanceDraw : ℕ → ℚ
  chargeDraw : ℕ → ℕ
  specialChanceDraw : ℕ → ℚ
  specialAmtDraw : ℕ → ℚ
  taxRateDraw : ℕ → ℚ
  exemptDraw : ℕ → ℚ

/-- The weighted status population: 90 Completed, 5 In Progress, 5 Pending. -/
def statuses_weighted : List String :=
  List.replicate 90 "Completed" ++ List.replicate 5 "In Progress" ++
    List.replicate 5 "Pending"

/-- The weighted PO-required population: 60 Yes, 40 No. -/
def po_req_choices : List String :=
  List.replicate 60 "Yes" ++ List.replicate 40 "No"

/-- Fallback values for `random.choice`; on the lists the source passes,
the choice never falls back to these. -/
def defaultSequence : Sequence := ⟨0, ""⟩

/-- Fallback customer for `random.choice` (never used on nonempty input). -/
def defaultCustomer : Customer := { customer_id := "", name := "" }

/-- Fallback product for `random.choice` (never used on nonempty input). -/
def defaultProduct : Product := { code := "", name := "" }

/-- `DataGenerator.generate_date_in_month`: a random day within the month,
via `randint(1, monthrange(year, month)[1])`. -/
def generate_date_in_month (year month : ℕ) (dayDraw : ℕ) : Date :=
  let num_days := daysInMonth year month
  let day := randint 1 num_days dayDraw
  ⟨year, month, day⟩

/-- The body of the per-order loop in `DataGenerator.generate_orders`
(order index `i`, pre-sorted date `date_obj`). -/
def make_order (products : List Product) (customers : List Customer)
    (month : ℕ) (month_year_str : String) (date_obj : Date) (i : ℕ)
    (g : RandomOracle) : Order :=
  let customer := pyChoice customers defaultCustomer (g.custDraw i)
  let sequence := pyChoice customer.sequences defaultSequence (g.seqDraw i)
  let order_num := "ORD-" ++ month_year_str ++ "-" ++ fmt0 4 (i + 1)
  let po_req := pyChoice po_req_choices "Yes" (g.poDraw i)
  let po_num := if po_req = "Yes" then "PO-" ++ month_year_str ++ "-" ++ fmt0 3 (i + 1) else ""
  let status := pyChoice statuses_weighted "Completed" (g.statusDraw i)
  let invoice_num := if status = "Completed" then "INV-" ++ month_year_str ++ "-" ++ fmt0 4 (i + 1) else ""
  let invoice_date : Option DateVal :=
    if status = "Completed" then
      let invoice_date_obj := date_obj.nextDay
      some (.date (if invoice_date_obj.month ≠ month then date_obj else invoice_date_obj))
    else none
  let bol := "BOL-" ++ month_year_str ++ "-" ++ fmt0 4 (i + 1)
  let product := pyChoice products defaultProduct (g.prodDraw i)
  let unit_price := product.get_random_price (g.priceDraw i)
  let quantity : ℤ := (randint 20 350 (g.qtyDraw i) : ℤ) * 10
  let has_additional_charges := pyRandom (g.addChanceDraw i) < 1/10
  let acs : String × FloatStr × FloatStr :=
    if has_additional_charges then
      let additional_product := pyChoice standard_charge_names "" (g.chargeDraw i)
      let charges : FloatStr := .num (standardChargeValue additional_product)
      let special_charges : FloatStr :=
        if pyRandom (g.specialChanceDraw i) < 3/10 then
          .num (pyRound (pyUniform 10 50 (g.specialAmtDraw i)) 2)
        else .str ""
      (additional_product, charges, special_charges)
    else ("", .str "", .str "")
  let o : Order :=
    { customer_name := customer.name
      order_number := order_num
      sequence_id := sequence.seq_id
      sequence_desc := sequence.description
      po_number := po_num
      po_required := po_req
      date := .date date_obj
      status := status
      invoice_number := invoice_num
      invoice_date := invoice_date
      bol := bol
      product_name := product.name
      unit_price := unit_price
      quantity := quantity
      additional_product := acs.1
      charges := acs.2.1
      special_charges := acs.2.2 }
  o.calculate_totals (g.taxRateDraw i) (g.exemptDraw i)

/-- `DataGenerator.generate_orders`: draw all dates first, sort them
ascending (Python's stable list sort; under the total antisymmetric date
order the sorted permutation is unique, so insertion sort represents it
exactly), then build order `i` from the `i`-th sorted date. -/
def generate_orders (products : List Product) (customers : List Customer)
    (year month num_orders : ℕ) (g : RandomOracle) : List Order :=
  let dates := (List.range num_orders).map
    (fun k => generate_date_in_month year month (g.dayDraw k))
  let sortedDates := List.insertionSort dateLeP dates
  let month_year_str := natRepr year ++ fmt0 2 month
  (List.range num_orders).map
    (fun i => make_order products customers month month_year_str
      (sortedDates.getD i ⟨0, 0, 0⟩) i g)

/-! ## CSV writing (`dummydata.utils.csv_handler.CSVHandler.write_csv`)

The filesystem is a map from path to written rows.  `write_csv` opens the
target with mode `w` (truncating it), writes the header row and then the
data rows, and catches every exception, returning `False`.  Where a real
run can fail is modelled by a `WriteOutcome` fault point: before the file
is opened (directory creation or open failure), after opening but before
the header is written, or after a given number of data rows. -/

/-- Fault point of one `write_csv` call. -/
inductive WriteOutcome where
  | ok
  | failBeforeOpen
  | failAfterOpen
  | failAfterRows (k : ℕ)
deriving DecidableEq

/-- The modelled filesystem: written CSV files by path. -/
def FileSystem : Type := List (String × List (List Cell))

/-- Replace (or create) the contents of one file. -/
def FileSystem.setFile (fs : FileSystem) (path : String)
    (content : List (List Cell)) : FileSystem :=
  (path, content) :: List.filter (fun e => !(e.1 == path)) fs

/-- Contents of a file, if present. -/
def FileSystem.read? (fs : FileSystem) (path : String) : Option (List (List Cell)) :=
  List.lookup path fs

/-- `CSVHandler.write_csv`: truncate-and-write the header row then the data
rows; any exception is caught and reported as `False`. -/
def write_csv (fs : FileSystem) (path : String) (headers : List String)
    (data : List (List Cell)) (w : WriteOutcome) : FileSystem × Bool :=
  match w with
  | .ok => (fs.setFile path ((headers.map Cell.str) :: data), true)
  | .failBeforeOpen => (fs, false)
  | .failAfterOpen => (fs.setFile path [], false)
  | .failAfterRows k => (fs.setFile path ((headers.map Cell.str) :: data.take k), false)

/-! ## Fixtures used by concrete witnesses -/

/-- The delivery date of a generated order (generated orders always carry a
`date` value, not a string). -/
def Order.deliveryDate (o : Order) : Date :=
  match o.date with
  | .date d => d
  | .str _ => ⟨0, 0, 0⟩

/-- A concrete product with a set price band. -/
def sampleProduct : Product :=
  { code := "REG001", name := "Regular Gasoline", min_price := 3, max_price := 4 }

/-- A concrete customer owning one delivery sequence. -/
def sampleCustomer : Customer :=
  { customer_id := "CUST0001", name := "Acme Fuels",
    sequences := [⟨1, "Location 1"⟩] }

/-- An all-zero draw stream. -/
def zeroOracle : RandomOracle :=
  { dayDraw := fun _ => 0, custDraw := fun _ => 0, seqDraw := fun _ => 0
    poDraw := fun _ => 0, statusDraw := fun _ => 0, prodDraw := fun _ => 0
    priceDraw := fun _ => 0, qtyDraw := fun _ => 0, addChanceDraw := fun _ => 0
    chargeDraw := fun _ => 0, specialChanceDraw := fun _ => 0
    specialAmtDraw := fun _ => 0, taxRateDraw := fun _ => 0
    exemptDraw := fun _ => 0 }

/-- An all-fields order whose textual fields are in serialized form. -/
def sampleOrder : Order :=
  { customer_name := "Acme Fuels", order_number := "ORD-202402-0001"
    sequence_id := 1, sequence_desc := "Location 1"
    date := .str "02/01/2024", product_name := "Diesel"
    unit_price := 7/2, quantity := 200, status := "Completed"
    po_required := "Yes", po_number := "PO-202402-001"
    invoice_number := "INV-202402-0001"
    invoice_date := some (.str "02/02/2024"), bol := "BOL-202402-0001"
    additional_product := "Pump Fee", charges := .num 45
    special_charges := .str "", total_taxes := 21, exempt_taxes := 3
    total := 763, total_cost := 595, margin_per_gallon := 21/40 }

/-- A default order value for list indexing. -/
def emptyOrder : Order :=
  { customer_name := "", order_number := "", sequence_id := 0
    sequence_desc := "", date := .str "", product_name := ""
    unit_price := 0, quantity := 0 }

/-- A 22-field order row whose unit price parses while its total does not. -/
def c8Row : List Cell :=
  [.str "Acme Fuels", .str "ORD-202401-0001", .str "1", .str "Location 1",
   .str "", .str "No", .str "01/05/2024", .str "Completed", .str "", .str "",
   .str "BOL-202401-0001", .str "Diesel", .str "3.5", .str "100", .str "",
   .str "", .str "", .str "5.0", .str "abc", .str "0.0", .str "0.0",
   .str "0.0"]

/-- The first (index 0) order of a one-order February 2024 batch drawn from
the all-zero stream, written as the generation pipeline produces it. -/
def firstFebOrder : Order :=
  make_order [sampleProduct] [sampleCustomer] 2 (natRepr 2024 ++ fmt0 2 2)
    ((List.insertionSort dateLeP ((List.range 1).map
      (fun k => generate_date_in_month 2024 2 (zeroOracle.dayDraw k)))).getD 0 ⟨0, 0, 0⟩)
    0 zeroOracle

/-! ## Helper lemmas: decimal rendering reads back -/

theorem digitChar10_val {d : ℕ} (h : d < 10) : (digitChar10 d).toNat - 48 = d := by
  have hd : d = 0 ∨ d = 1 ∨ d = 2 ∨ d = 3 ∨ d = 4 ∨ d = 5 ∨ d = 6 ∨ d = 7 ∨ d = 8 ∨ d = 9 := by
    omega
  rcases hd with rfl | rfl | rfl | rfl | rfl | rfl | rfl | rfl | rfl | rfl <;> decide

theorem natDigitsAux_eq_digits : ∀ fuel n, n < fuel →
    natDigitsAux fuel n = (Nat.digits 10 n).map digitChar10 := by
  intro fuel
  induction fuel with
  | zero => intro n h; omega
  | succ fuel ih =>
    intro n h
    by_cases h0 : n = 0
    · subst h0; simp [natDigitsAux]
    · rw [natDigitsAux, if_neg h0,
        Nat.digits_def' (by norm_num : 1 < 10) (Nat.pos_of_ne_zero h0), List.map_cons,
        ih (n / 10) (by omega)]

theorem foldl_digitStep_digits (ds : List ℕ) (hds : ∀ d ∈ ds, d < 10) :
    ∀ a, ((ds.map digitChar10).reverse).foldl digitStep a
      = a * 10 ^ ds.length + Nat.ofDigits 10 ds := by
  induction ds with
  | nil => intro a; simp [Nat.ofDigits_nil]
  | cons d tl ih =>
    intro a
    have hd : d < 10 := hds d (by simp)
    have htl : ∀ x ∈ tl, x < 10 := fun x hx => hds x (by simp [hx])
    rw [List.map_cons, List.reverse_cons, List.foldl_append,
      ih htl a, List.foldl_cons, List.foldl_nil, Nat.ofDigits_cons]
    unfold digitStep
    rw [digitChar10_val hd, List.length_cons, pow_succ]
    ring

theorem parseNatStr_natRepr (n : ℕ) : parseNatStr (natRepr n) = n := by
  by_cases h0 : n = 0
  · subst h0; decide
  · unfold natRepr parseNatStr digitsVal
    rw [if_neg h0]
    show ((natDigitsAux (n + 1) n).reverse).foldl digitStep 0 = n
    rw [natDigitsAux_eq_digits (n + 1) n (by omega),
      foldl_digitStep_digits _ (fun d hd => Nat.digits_lt_base (by norm_num) hd) 0,
      Nat.ofDigits_digits]
    ring

theorem foldl_digitStep_zeros : ∀ k, (List.replicate k '0').foldl digitStep 0 = 0 := by
  intro k
  induction k with
  | zero => rfl
  | succ k ih => simpa [List.replicate_succ, List.foldl_cons, digitStep] using ih

theorem parseNatStr_fmt0 (w n : ℕ) : parseNatStr (fmt0 w n) = n := by
  unfold fmt0 zfill parseNatStr digitsVal
  show (List.replicate _ '0' ++ (natRepr n).data).foldl digitStep 0 = n
  rw [List.foldl_append, foldl_digitStep_zeros]
  exact parseNatStr_natRepr n

theorem fmt0_injOn {w m n : ℕ} (h : fmt0 w m = fmt0 w n) : m = n := by
  have := congrArg parseNatStr h
  rwa [parseNatStr_fmt0, parseNatStr_fmt0] at this

theorem string_append_left_cancel {s a b : String} (h : s ++ a = s ++ b) : a = b := by
  apply String.ext
  have hd := congrArg String.data h
  rw [String.data_append, String.data_append] at hd
  exact List.append_cancel_left hd

theorem tagged_fmt0_inj {pre : String} {w m n : ℕ}
    (h : pre ++ fmt0 w m = pre ++ fmt0 w n) : m = n :=
  fmt0_injOn (string_append_left_cancel h)

theorem string_append_ne_empty {s t : String} (h : s.data ≠ []) : s ++ t ≠ "" := by
  intro he
  have hd := congrArg String.data he
  rw [String.data_append] at hd
  exact h (List.append_eq_nil.mp hd).1

/-! ## Helper lemmas: projections of the per-order pipeline -/

theorem calc_customer_name (o : Order) (t e : ℚ) :
    (o.calculate_totals t e).customer_name = o.customer_name := rfl

theorem calc_order_number (o : Order) (t e : ℚ) :
    (o.calculate_totals t e).order_number = o.order_number := rfl

theorem calc_date (o : Order) (t e : ℚ) :
    (o.calculate_totals t e).date = o.date := rfl

theorem calc_status (o : Order) (t e : ℚ) :
    (o.calculate_totals t e).status = o.status := rfl

theorem calc_invoice_number (o : Order) (t e : ℚ) :
    (o.calculate_totals t e).invoice_number = o.invoice_number := rfl

theorem calc_invoice_date (o : Order) (t e : ℚ) :
    (o.calculate_totals t e).invoice_date = o.invoice_date := rfl

theorem calc_additional_product (o : Order) (t e : ℚ) :
    (o.calculate_totals t e).additional_product = o.additional_product := rfl

theorem calc_charges (o : Order) (t e : ℚ) :
    (o.calculate_totals t e).charges = o.charges := rfl

theorem calc_special_charges (o : Order) (t e : ℚ) :
    (o.calculate_totals t e).special_charges = o.special_charges := rfl

theorem make_order_order_number (ps : List Product) (cs : List Customer)
    (m : ℕ) (ym : String) (d : Date) (i : ℕ) (g : RandomOracle) :
    (make_order ps cs m ym d i g).order_number = "ORD-" ++ ym ++ "-" ++ fmt0 4 (i + 1) := rfl

theorem make_order_date (ps : List Product) (cs : List Customer)
    (m : ℕ) (ym : String) (d : Date) (i : ℕ) (g : RandomOracle) :
    (make_order ps cs m ym d i g).date = .date d := rfl

theorem make_order_deliveryDate (ps : List Product) (cs : List Customer)
    (m : ℕ) (ym : String) (d : Date) (i : ℕ) (g : RandomOracle) :
    (make_order ps cs m ym d i g).deliveryDate = d := rfl

theorem make_order_status (ps : List Product) (cs : List Customer)
    (m : ℕ) (ym : String) (d : Date) (i : ℕ) (g : RandomOracle) :
    (make_order ps cs m ym d i g).status = pyChoice statuses_weighted "Completed" (g.statusDraw i) := rfl

theorem make_order_invoice_number (ps : List Product) (cs : List Customer)
    (m : ℕ) (ym : String) (d : Date) (i : ℕ) (g : RandomOracle) :
    (make_order ps cs m ym d i g).invoice_number
      = if pyChoice statuses_weighted "Completed" (g.statusDraw i) = "Completed"
        then "INV-" ++ ym ++ "-" ++ fmt0 4 (i + 1) else "" := rfl

theorem make_order_invoice_date (ps : List Product) (cs : List Customer)
    (m : ℕ) (ym : String) (d : Date) (i : ℕ) (g : RandomOracle) :
    (make_order ps cs m ym d i g).invoice_date
      = if pyChoice statuses_weighted "Completed" (g.statusDraw i) = "Completed"
        then some (.date (if d.nextDay.month ≠ m then d else d.nextDay)) else none := rfl

theorem make_order_additional_product (ps : List Product) (cs : List Customer)
    (m : ℕ) (ym : String) (d : Date) (i : ℕ) (g : RandomOracle) :
    (make_order ps cs m ym d i g).additional_product
      = if pyRandom (g.addChanceDraw i) < 1/10
        then pyChoice standard_charge_names "" (g.chargeDraw i) else "" := by
  unfold make_order
  rw [calc_additional_product]
  by_cases h : pyRandom (g.addChanceDraw i) < 1/10
  · simp only [if_pos h]
  · simp only [if_neg h]

theorem make_order_charges (ps : List Product) (cs : List Customer)
    (m : ℕ) (ym : String) (d : Date) (i : ℕ) (g : RandomOracle) :
    (make_order ps cs m ym d i g).charges
      = if pyRandom (g.addChanceDraw i) < 1/10
        then .num (standardChargeValue (pyChoice standard_charge_names "" (g.chargeDraw i)))
        else .str "" := by
  unfold make_order
  rw [calc_charges]
  by_cases h : pyRandom (g.addChanceDraw i) < 1/10
  · simp only [if_pos h]
  · simp only [if_neg h]

theorem make_order_special_charges (ps : List Product) (cs : List Customer)
    (m : ℕ) (ym : String) (d : Date) (i : ℕ) (g : RandomOracle) :
    (make_order ps cs m ym d i g).special_charges
      = if pyRandom (g.addChanceDraw i) < 1/10
        then (if pyRandom (g.specialChanceDraw i) < 3/10
              then .num (pyRound (pyUniform 10 50 (g.specialAmtDraw i)) 2)
              else .str "")
        else .str "" := by
  unfold make_order
  rw [calc_special_charges]
  by_cases h : pyRandom (g.addChanceDraw i) < 1/10
  · simp only [if_pos h]
  · simp only [if_neg h]

/-! ## Helper lemmas: randomness primitives stay in range -/

theorem pyRandom_nonneg (t : ℚ) : 0 ≤ pyRandom t := Int.fract_nonneg t

theorem pyRandom_lt_one (t : ℚ) : pyRandom t < 1 := Int.fract_lt_one t

theorem le_pyUniform {a b : ℚ} (t : ℚ) (h : a ≤ b) : a ≤ pyUniform a b t := by
  unfold pyUniform
  nlinarith [pyRandom_nonneg t]

theorem pyUniform_le {a b : ℚ} (t : ℚ) (h : a ≤ b) : pyUniform a b t ≤ b := by
  unfold pyUniform
  nlinarith [pyRandom_nonneg t, pyRandom_lt_one t]

theorem randint_lb (a b d : ℕ) : a ≤ randint a b d := Nat.le_add_right a _

theorem randint_ub {a b : ℕ} (d : ℕ) (h : a ≤ b) : randint a b d ≤ b := by
  unfold randint
  have := Nat.mod_lt d (show 0 < b - a + 1 by omega)
  omega

theorem pyChoice_mem {α : Type} {l : List α} (dflt : α) (d : ℕ) (h : l ≠ []) :
    pyChoice l dflt d ∈ l := by
  unfold pyChoice
  have hlen : 0 < l.length := List.length_pos.mpr h
  have hlt : d % l.length < l.length := Nat.mod_lt d hlen
  rw [List.getD_eq_getElem l dflt hlt]
  exact List.getElem_mem hlt

theorem pyRound_le_pyRound {q r : ℚ} (n : ℕ) (h : q ≤ r) :
    pyRound q n ≤ pyRound r n := by
  unfold pyRound
  have h10 : (0 : ℚ) < 10 ^ n := by positivity
  have hr : round (q * 10 ^ n) ≤ round (r * 10 ^ n) := by
    rw [round_eq, round_eq]
    exact Int.floor_le_floor (by nlinarith)
  have : ((round (q * 10 ^ n) : ℤ) : ℚ) ≤ ((round (r * 10 ^ n) : ℤ) : ℚ) := by
    exact_mod_cast hr
  exact div_le_div_of_nonneg_right this h10.le

/-! ## Helper lemmas: lists -/

theorem map_range_getD {α : Type} (l : List α) (dflt : α) :
    (List.range l.length).map (fun i => l.getD i dflt) = l := by
  apply List.ext_getElem
  · simp
  · intro i h1 h2
    simp only [List.getElem_map, List.getElem_range]
    exact List.getD_eq_getElem l dflt h2

theorem daysInMonth_pos (y m : ℕ) : 0 < daysInMonth y m := by
  unfold daysInMonth
  split_ifs <;> norm_num

theorem getD_mem_of_lt {α : Type} {l : List α} {i : ℕ} (d : α) (h : i < l.length) :
    l.getD i d ∈ l := by
  rw [List.getD_eq_getElem l d h]
  exact List.getElem_mem h

theorem sorted_dates_mem (year month count : ℕ) (g : RandomOracle) {d : Date}
    (hd : d ∈ List.insertionSort dateLeP
      ((List.range count).map (fun k => generate_date_in_month year month (g.dayDraw k)))) :
    d.year = year ∧ d.month = month ∧ 1 ≤ d.day ∧ d.day ≤ daysInMonth year month := by
  rw [(List.perm_insertionSort dateLeP _).mem_iff] at hd
  simp only [List.mem_map, List.mem_range] at hd
  obtain ⟨k, -, rfl⟩ := hd
  refine ⟨rfl, rfl, randint_lb _ _ _, randint_ub _ ?_⟩
  exact daysInMonth_pos year month

theorem append_data_ne_nil {x y : String} (h : y.data ≠ []) : (x ++ y).data ≠ [] := by
  rw [String.data_append]
  intro he
  exact h (List.append_eq_nil.mp he).2

/-! ## Claim theorems -/

/-- Claim C1: for every order, `calculate_totals` sets `total` to
`main_charges + additional_charges + special_charges + total_taxes -
exempt_taxes` with `main_charges = round(unit_price * quantity, 2)` and
non-numeric charge fields contributing 0, without rounding after the sum;
`total_cost = round(main_charges * 0.85, 2)`; and `margin_per_gallon =
round((main_charges - total_cost) / quantity, 3)` when the quantity is
positive and `0.0` otherwise. -/
theorem claim_c1_calculate_totals (o : Order) (t e : ℚ) :
    (o.calculate_totals t e).total
      = pyRound (o.unit_price * o.quantity) 2 + o.charges.numValue
        + o.special_charges.numValue + (o.calculate_totals t e).total_taxes
        - (o.calculate_totals t e).exempt_taxes
    ∧ (o.calculate_totals t e).total_cost
      = pyRound (pyRound (o.unit_price * o.quantity) 2 * (85/100)) 2
    ∧ (0 < o.quantity → (o.calculate_totals t e).margin_per_gallon
        = pyRound ((pyRound (o.unit_price * o.quantity) 2
            - (o.calculate_totals t e).total_cost) / o.quantity) 3)
    ∧ (¬ 0 < o.quantity → (o.calculate_totals t e).margin_per_gallon = 0) := by
  refine ⟨rfl, rfl, fun h => ?_, fun h => ?_⟩
  · show (if 0 < o.quantity then _ else _) = _
    rw [if_pos h]
    rfl
  · show (if 0 < o.quantity then _ else _) = _
    rw [if_neg h]

/-- Witness for C1 at a concrete order with positive quantity. -/
theorem claim_c1_witness :
    (0 : ℤ) < sampleOrder.quantity ∧
    (sampleOrder.calculate_totals 0 0).margin_per_gallon
      = pyRound ((pyRound (sampleOrder.unit_price * sampleOrder.quantity) 2
          - (sampleOrder.calculate_totals 0 0).total_cost) / sampleOrder.quantity) 3 :=
  ⟨by decide, (claim_c1_calculate_totals sampleOrder 0 0).2.2.1 (by decide)⟩

/-- Claim C2: with a nonempty product list, customers all owning at least
one sequence, and any requested count, `generate_orders` returns exactly
`count` orders; order `i` carries order number `ORD-` followed by the year,
the zero-padded two-digit month, a dash and the 1-based four-digit padded
index, so order numbers in a batch are pairwise distinct; a zero count
yields the empty list. -/
theorem claim_c2_generate_orders_count
    (products : List Product) (customers : List Customer)
    (year month count : ℕ) (g : RandomOracle)
    (hp : products ≠ []) (hc : customers ≠ [])
    (hs : ∀ c ∈ customers, c.sequences ≠ []) :
    (generate_orders products customers year month count g).length = count
    ∧ (∀ i, i < count →
        ((generate_orders products customers year month count g).getD i emptyOrder).order_number
          = "ORD-" ++ (natRepr year ++ fmt0 2 month) ++ "-" ++ fmt0 4 (i + 1))
    ∧ ((generate_orders products customers year month count g).map
        Order.order_number).Pairwise (fun a b => a ≠ b)
    ∧ (count = 0 → generate_orders products customers year month count g = []) := by
  refine ⟨?_, ?_, ?_, ?_⟩
  · simp [generate_orders]
  · intro i hi
    have hlen : i < ((List.range count).map
        (fun i => make_order products customers month (natRepr year ++ fmt0 2 month)
          ((List.insertionSort dateLeP ((List.range count).map
            (fun k => generate_date_in_month year month (g.dayDraw k)))).getD i ⟨0, 0, 0⟩)
          i g)).length := by
      simpa using hi
    show ((List.range count).map _ |>.getD i emptyOrder).order_number = _
    rw [List.getD_eq_getElem _ _ hlen, List.getElem_map, List.getElem_range,
      make_order_order_number]
  · show (((List.range count).map _).map Order.order_number).Pairwise _
    rw [List.map_map]
    refine List.Pairwise.map _ ?_ (List.pairwise_lt_range count)
    intro a b hab heq
    simp only [Function.comp, make_order_order_number] at heq
    have := tagged_fmt0_inj heq
    omega
  · intro h0
    subst h0
    simp [generate_orders]

/-- Witness for C2 on a concrete batch of two orders for February 2024. -/
theorem claim_c2_witness :
    (generate_orders [sampleProduct] [sampleCustomer] 2024 2 2 zeroOracle).length = 2
    ∧ ((generate_orders [sampleProduct] [sampleCustomer] 2024 2 2 zeroOracle).map
        Order.order_number).Pairwise (fun a b => a ≠ b) := by
  have h := claim_c2_generate_orders_count [sampleProduct] [sampleCustomer] 2024 2 2 zeroOracle
    (by simp) (by simp)
    (by
      intro c hc
      rw [List.mem_singleton] at hc
      subst hc
      simp [sampleCustomer])
  exact ⟨h.1, h.2.2.1⟩

/-- Claim C3: every generated order's date lies in the requested month,
between day 1 and the month's last valid day (leap years respected), and
the dates across the batch are non-decreasing because all dates are drawn
and sorted ascending before the per-order loop. -/
theorem claim_c3_dates_in_month_sorted
    (products : List Product) (customers : List Customer)
    (year month count : ℕ) (g : RandomOracle)
    (hm1 : 1 ≤ month) (hm2 : month ≤ 12) :
    (∀ o ∈ generate_orders products customers year month count g,
      ∃ d : Date, o.date = .date d ∧ d.year = year ∧ d.month = month
        ∧ 1 ≤ d.day ∧ d.day ≤ daysInMonth year month)
    ∧ ((generate_orders products customers year month count g).map
        Order.deliveryDate).Pairwise dateLeP := by
  constructor
  · intro o ho
    simp only [generate_orders, List.mem_map, List.mem_range] at ho
    obtain ⟨i, hi, rfl⟩ := ho
    rw [make_order_date]
    refine ⟨_, rfl, ?_⟩
    refine sorted_dates_mem year month count g (getD_mem_of_lt _ ?_)
    simpa [List.length_insertionSort] using hi
  · show ((List.map _ (List.range count)).map Order.deliveryDate).Pairwise dateLeP
    rw [List.map_map]
    set L := List.insertionSort dateLeP ((List.range count).map
      (fun k => generate_date_in_month year month (g.dayDraw k))) with hLdef
    have hfun : (Order.deliveryDate ∘ fun i =>
        make_order products customers month (natRepr year ++ fmt0 2 month)
          (L.getD i ⟨0, 0, 0⟩) i g)
        = fun i => L.getD i ⟨0, 0, 0⟩ :=
      funext fun i => make_order_deliveryDate _ _ _ _ _ _ _
    rw [hfun]
    have hlen : L.length = count := by
      simp [hLdef, List.length_insertionSort]
    rw [← hlen, map_range_getD, hLdef]
    exact List.sorted_insertionSort dateLeP _

/-- Witness for C3 on one order in February 2024 (a leap month). -/
theorem claim_c3_witness :
    (∀ o ∈ generate_orders [sampleProduct] [sampleCustomer] 2024 2 1 zeroOracle,
      ∃ d : Date, o.date = .date d ∧ d.year = 2024 ∧ d.month = 2
        ∧ 1 ≤ d.day ∧ d.day ≤ daysInMonth 2024 2)
    ∧ ((generate_orders [sampleProduct] [sampleCustomer] 2024 2 1 zeroOracle).map
        Order.deliveryDate).Pairwise dateLeP :=
  claim_c3_dates_in_month_sorted [sampleProduct] [sampleCustomer] 2024 2 1 zeroOracle
    (by norm_num) (by norm_num)

theorem nextDay_cases (d : Date) :
    d.nextDay = ⟨d.year, d.month, d.day + 1⟩ ∨ d.nextDay.month ≠ d.month := by
  unfold Date.nextDay
  split_ifs with h1 h2
  · exact Or.inl rfl
  · right
    simp only [ne_eq]
    omega
  · right
    simp only [ne_eq]
    omega

/-- Claim C4: a generated order's invoice number and invoice date are
non-empty exactly when its status is Completed; when present, the invoice
date is the order date plus one day unless that day falls in a different
month, in which case it is the order date itself, so it never lies in a
different month (or year) than the order date. -/
theorem claim_c4_invoice_rules
    (products : List Product) (customers : List Customer)
    (year month count : ℕ) (g : RandomOracle) :
    ∀ o ∈ generate_orders products customers year month count g,
      (o.invoice_number ≠ "" ↔ o.status = "Completed")
      ∧ (o.invoice_date ≠ none ↔ o.status = "Completed")
      ∧ (∀ dv, o.invoice_date = some dv →
          dv = .date (if o.deliveryDate.nextDay.month ≠ month then o.deliveryDate
                      else o.deliveryDate.nextDay)
          ∧ ∀ dd, dv = .date dd → dd.month = o.deliveryDate.month
              ∧ dd.year = o.deliveryDate.year) := by
  intro o ho
  simp only [generate_orders, List.mem_map, List.mem_range] at ho
  obtain ⟨i, hi, rfl⟩ := ho
  set d := (List.insertionSort dateLeP ((List.range count).map
    (fun k => generate_date_in_month year month (g.dayDraw k)))).getD i ⟨0, 0, 0⟩ with hd
  have hdp : d.year = year ∧ d.month = month ∧ 1 ≤ d.day ∧ d.day ≤ daysInMonth year month := by
    refine sorted_dates_mem year month count g ?_
    rw [hd]
    refine getD_mem_of_lt _ ?_
    simpa [List.length_insertionSort] using hi
  rw [make_order_invoice_number, make_order_invoice_date, make_order_status,
    make_order_deliveryDate]
  by_cases hst : pyChoice statuses_weighted "Completed" (g.statusDraw i) = "Completed"
  · simp only [if_pos hst]
    refine ⟨⟨fun _ => hst, fun _ => ?_⟩, ⟨fun _ => hst, fun _ => by simp⟩, ?_⟩
    · exact string_append_ne_empty (append_data_ne_nil (by decide))
    · intro dv hdv
      have hx := Option.some.inj hdv
      subst hx
      refine ⟨rfl, ?_⟩
      intro dd hdd
      have hx2 := DateVal.date.inj hdd
      subst hx2
      by_cases hc : d.nextDay.month ≠ month
      · rw [if_pos hc]
        exact ⟨rfl, rfl⟩
      · rw [if_neg hc]
        push_neg at hc
        rcases nextDay_cases d with hnd | hnd
        · rw [hnd]
          exact ⟨rfl, rfl⟩
        · exact absurd (hc.trans hdp.2.1.symm) hnd
  · simp only [if_neg hst]
    refine ⟨⟨fun h => absurd rfl h, fun h => absurd h hst⟩,
      ⟨fun h => absurd rfl h, fun h => absurd h hst⟩, ?_⟩
    intro dv hdv
    exact absurd hdv (by simp)

/-- Witness for C4 at the first order of a one-order February 2024 batch. -/
theorem claim_c4_witness :
    (firstFebOrder.invoice_number ≠ "" ↔ firstFebOrder.status = "Completed")
    ∧ (firstFebOrder.invoice_date ≠ none ↔ firstFebOrder.status = "Completed")
    ∧ (∀ dv, firstFebOrder.invoice_date = some dv →
        dv = .date (if firstFebOrder.deliveryDate.nextDay.month ≠ 2
                    then firstFebOrder.deliveryDate
                    else firstFebOrder.deliveryDate.nextDay)
        ∧ ∀ dd, dv = .date dd → dd.month = firstFebOrder.deliveryDate.month
            ∧ dd.year = firstFebOrder.deliveryDate.year) := by
  refine claim_c4_invoice_rules [sampleProduct] [sampleCustomer] 2024 2 1 zeroOracle
    firstFebOrder ?_
  simp only [generate_orders, List.mem_map, List.mem_range]
  exact ⟨0, by norm_num, rfl⟩

theorem toFloatStr_of_floatStr (f : FloatStr) : f.toCell.toFloatStr = f := by
  cases f <;> rfl

theorem parse_charge_cell (c : Cell)
    (hc : (∃ q, c = .num q) ∨ ∃ s, c = .str s ∧ s.data.all Char.isWhitespace) :
    parseChargeCell c = some c.toFloatStr := by
  unfold parseChargeCell
  rcases hc with ⟨q, rfl⟩ | ⟨s, rfl, hws⟩
  · rfl
  · have hse : Cell.stripEmpty (.str s) = true := hws
    rw [hse, Bool.or_true, if_pos rfl]

theorem parseNumericFields_cells
    (c0 c1 c2 c3 c4 c5 c6 c7 c8 c9 c10 c11 c14 : Cell) (up : ℚ) (qty : ℤ)
    (ch sp : FloatStr) (tt tot et tc mpg : ℚ)
    (hch : (∃ q, ch = .num q) ∨ ∃ s, ch = .str s ∧ s.data.all Char.isWhitespace)
    (hsp : (∃ q, sp = .num q) ∨ ∃ s, sp = .str s ∧ s.data.all Char.isWhitespace) :
    parseNumericFields
      [c0, c1, c2, c3, c4, c5, c6, c7, c8, c9, c10, c11, .num up, .int qty, c14,
       ch.toCell, sp.toCell, .num tt, .num tot, .num et, .num tc, .num mpg]
      = some ⟨up, qty, ch, sp, tt, tot, et, tc, mpg⟩ := by
  have hch' : (∃ q, ch.toCell = Cell.num q)
      ∨ ∃ s, ch.toCell = Cell.str s ∧ s.data.all Char.isWhitespace := by
    rcases hch with ⟨q, rfl⟩ | ⟨s, rfl, hws⟩
    · exact Or.inl ⟨q, rfl⟩
    · exact Or.inr ⟨s, rfl, hws⟩
  have hsp' : (∃ q, sp.toCell = Cell.num q)
      ∨ ∃ s, sp.toCell = Cell.str s ∧ s.data.all Char.isWhitespace := by
    rcases hsp with ⟨q, rfl⟩ | ⟨s, rfl, hws⟩
    · exact Or.inl ⟨q, rfl⟩
    · exact Or.inr ⟨s, rfl, hws⟩
  have h1 : parseNumericFields
      [c0, c1, c2, c3, c4, c5, c6, c7, c8, c9, c10, c11, .num up, .int qty, c14,
       ch.toCell, sp.toCell, .num tt, .num tot, .num et, .num tc, .num mpg]
      = (parseChargeCell ch.toCell).bind
        (fun chv => (parseChargeCell sp.toCell).bind
          (fun spv => some ⟨up, qty, chv, spv, tt, tot, et, tc, mpg⟩)) := rfl
  rw [h1, parse_charge_cell _ hch', parse_charge_cell _ hsp',
    toFloatStr_of_floatStr ch, toFloatStr_of_floatStr sp]
  rfl

/-- Claim C5: round-trip fidelity of serialization.  For a Customer, parsing
its serialized row reproduces all nine row fields (sequences live in a
separate file and come back empty).  For an Order whose date fields are
already in textual form, whose sequence id is nonnegative, and whose charge
fields are numbers or semantically-absent text (empty or whitespace), the
round trip is the identity.  For a Product, the round trip preserves all
fourteen descriptive fields while the price band is always freshly redrawn
from the given uniform draws. -/
theorem claim_c5_round_trip (c : Customer) (o : Order) (p : Product)
    (minDraw maxDraw : ℚ)
    (hdate : ∃ s, o.date = .str s)
    (hinv : ∃ s, o.invoice_date = some (.str s))
    (hseq : 0 ≤ o.sequence_id)
    (hch : (∃ q, o.charges = .num q) ∨ ∃ s, o.charges = .str s ∧ s.data.all Char.isWhitespace)
    (hsp : (∃ q, o.special_charges = .num q)
        ∨ ∃ s, o.special_charges = .str s ∧ s.data.all Char.isWhitespace) :
    (∃ c2, Customer.from_row c.to_row = some c2 ∧ c2.customer_id = c.customer_id
      ∧ c2.name = c.name ∧ c2.address = c.address ∧ c2.city = c.city
      ∧ c2.state = c.state ∧ c2.zip_code = c.zip_code
      ∧ c2.contact_name = c.contact_name ∧ c2.phone = c.phone
      ∧ c2.email = c.email ∧ c2.sequences = [])
    ∧ Order.from_row o.to_row = some o
    ∧ Product.from_row p.to_row minDraw maxDraw
        = some { p with min_price := pyRound (pyUniform (5/2) (16/5) minDraw) 2
                        max_price := pyRound (pyUniform (7/2) (9/2) maxDraw) 2 } := by
  refine ⟨⟨_, rfl, rfl, rfl, rfl, rfl, rfl, rfl, rfl, rfl, rfl, rfl⟩, ?_, rfl⟩
  obtain ⟨cn, onum, sid, sdesc, dt, pn, up, qty, st, por, pon, invn, invd, bolv,
    ap, ch, sp, tt, et, tot, tc, mpg⟩ := o
  dsimp only at hdate hinv hseq hch hsp
  obtain ⟨ds, rfl⟩ := hdate
  obtain ⟨is, rfl⟩ := hinv
  have hrow : Order.to_row (Order.mk cn onum sid sdesc (.str ds) pn up qty st por pon
      invn (some (.str is)) bolv ap ch sp tt et tot tc mpg)
      = [.str cn, .str onum, .int sid, .str sdesc, .str pon, .str por, .str ds,
         .str st, .str invn, .str is, .str bolv, .str pn, .num up, .int qty, .str ap,
         ch.toCell, sp.toCell, .num tt, .num tot, .num et, .num tc, .num mpg] := rfl
  unfold Order.from_row
  rw [hrow, if_neg (by simp),
    parseNumericFields_cells (.str cn) (.str onum) (.int sid) (.str sdesc)
      (.str pon) (.str por) (.str ds) (.str st) (.str invn) (.str is) (.str bolv)
      (.str pn) (.str ap) up qty ch sp tt tot et tc mpg hch hsp]
  simp only [Option.getD_some]
  refine congrArg some ?_
  congr 1
  show (if Cell.isdigit (Cell.int sid) = true then Cell.digitVal (Cell.int sid) else 0) = sid
  rw [if_pos (show Cell.isdigit (Cell.int sid) = true from decide_eq_true hseq)]
  rfl

/-- Witness for C5 at a concrete customer, order and product. -/
theorem claim_c5_witness :
    (∃ c2, Customer.from_row sampleCustomer.to_row = some c2
      ∧ c2.customer_id = sampleCustomer.customer_id
      ∧ c2.name = sampleCustomer.name ∧ c2.address = sampleCustomer.address
      ∧ c2.city = sampleCustomer.city ∧ c2.state = sampleCustomer.state
      ∧ c2.zip_code = sampleCustomer.zip_code
      ∧ c2.contact_name = sampleCustomer.contact_name
      ∧ c2.phone = sampleCustomer.phone ∧ c2.email = sampleCustomer.email
      ∧ c2.sequences = [])
    ∧ Order.from_row sampleOrder.to_row = some sampleOrder
    ∧ Product.from_row sampleProduct.to_row 0 0
        = some { sampleProduct with
                   min_price := pyRound (pyUniform (5/2) (16/5) 0) 2
                   max_price := pyRound (pyUniform (7/2) (9/2) 0) 2 } :=
  claim_c5_round_trip sampleCustomer sampleOrder sampleProduct 0 0
    ⟨"02/01/2024", rfl⟩ ⟨"02/02/2024", rfl⟩ (by decide)
    (Or.inl ⟨45, rfl⟩) (Or.inr ⟨"", rfl, rfl⟩)

theorem round_le_round_q {a b : ℚ} (h : a ≤ b) : round a ≤ round b := by
  rw [round_eq, round_eq]
  exact Int.floor_le_floor (by linarith)

theorem pyRound_const_16_5 : pyRound (16/5 : ℚ) 2 = 16/5 := by
  unfold pyRound
  rw [show (16/5 : ℚ) * 10 ^ 2 = ((320 : ℤ) : ℚ) by norm_num, round_intCast]
  norm_num

theorem pyRound_const_7_2 : pyRound (7/2 : ℚ) 2 = 7/2 := by
  unfold pyRound
  rw [show (7/2 : ℚ) * 10 ^ 2 = ((350 : ℤ) : ℚ) by norm_num, round_intCast]
  norm_num

/-- Counterexample for C6: contrary to the claim's "on some rare draws
min_price can exceed max_price", no draw produces an inverted band: the
two ranges are disjoint (the min draw stays at or below 3.20 and the max
draw at or above 3.50), so `Product.from_row` can never return a product
with `max_price < min_price`. -/
theorem claim_c6_counterexample :
    ¬ ∃ (row : List Cell) (t u : ℚ) (p : Product),
      Product.from_row row t u = some p ∧ p.max_price < p.min_price := by
  rintro ⟨row, t, u, p, hp, hlt⟩
  unfold Product.from_row at hp
  by_cases hl : row.length < 2
  · rw [if_pos hl] at hp
    exact Option.noConfusion hp
  · rw [if_neg hl] at hp
    have hp' := Option.some.inj hp
    have hmin : p.min_price = pyRound (pyUniform (5/2) (16/5) t) 2 := by
      rw [← hp']
    have hmax : p.max_price = pyRound (pyUniform (7/2) (9/2) u) 2 := by
      rw [← hp']
    have h1 : pyRound (pyUniform (5/2) (16/5) t) 2 ≤ pyRound (16/5) 2 :=
      pyRound_le_pyRound 2 (pyUniform_le t (by norm_num))
    have h2 : pyRound (7/2) 2 ≤ pyRound (pyUniform (7/2) (9/2) u) 2 :=
      pyRound_le_pyRound 2 (le_pyUniform u (by norm_num))
    rw [pyRound_const_16_5] at h1
    rw [pyRound_const_7_2] at h2
    rw [hmin, hmax] at hlt
    linarith

/-- Amended claim C6: product price-band bounds are drawn independently at
creation, `min_price = round(uniform(2.50, 3.20), 2)` and `max_price =
round(uniform(3.50, 4.50), 2)`; although no ordering is enforced by
construction, the two draw ranges are disjoint, so `min_price < max_price`
always holds and an inverted band is impossible. -/
theorem claim_c6_amended (row : List Cell) (t u : ℚ) (p : Product)
    (hp : Product.from_row row t u = some p) :
    p.min_price = pyRound (pyUniform (5/2) (16/5) t) 2
    ∧ p.max_price = pyRound (pyUniform (7/2) (9/2) u) 2
    ∧ p.min_price < p.max_price := by
  unfold Product.from_row at hp
  by_cases hl : row.length < 2
  · rw [if_pos hl] at hp
    exact Option.noConfusion hp
  · rw [if_neg hl] at hp
    have hp' := Option.some.inj hp
    subst hp'
    refine ⟨rfl, rfl, ?_⟩
    have h1 : pyRound (pyUniform (5/2) (16/5) t) 2 ≤ pyRound (16/5) 2 :=
      pyRound_le_pyRound 2 (pyUniform_le t (by norm_num))
    have h2 : pyRound (7/2) 2 ≤ pyRound (pyUniform (7/2) (9/2) u) 2 :=
      pyRound_le_pyRound 2 (le_pyUniform u (by norm_num))
    rw [pyRound_const_16_5] at h1
    rw [pyRound_const_7_2] at h2
    show pyRound (pyUniform (5/2) (16/5) t) 2 < pyRound (pyUniform (7/2) (9/2) u) 2
    linarith

/-- Witness for the amended C6 at a concrete two-field row and zero draws. -/
theorem claim_c6_witness :
    ∃ p, Product.from_row [Cell.str "REG001", Cell.str "Regular Gasoline"] 0 0 = some p
      ∧ p.min_price < p.max_price := by
  refine ⟨_, rfl, ?_⟩
  exact (claim_c6_amended [Cell.str "REG001", Cell.str "Regular Gasoline"] 0 0 _ rfl).2.2

theorem round_intCast_le {z : ℤ} {q : ℚ} (h : (z : ℚ) ≤ q) : z ≤ round q := by
  have := round_le_round_q h
  rwa [round_intCast] at this

theorem round_le_intCast {z : ℤ} {q : ℚ} (h : q ≤ (z : ℚ)) : round q ≤ z := by
  have := round_le_round_q h
  rwa [round_intCast] at this

/-- Claim C7: in every generated order the additional-charge fields are
either all absent (empty strings, meaning not applicable) or a named
standard charge is attached together with its fixed price from the lookup,
and only then may a special charge (uniform in the 10 to 50 range, rounded
to cents) also be present; in particular a special charge implies a
numeric standard charge. -/
theorem claim_c7_additional_charges
    (products : List Product) (customers : List Customer)
    (year month count : ℕ) (g : RandomOracle) :
    ∀ o ∈ generate_orders products customers year month count g,
      ((o.additional_product = "" ∧ o.charges = .str "" ∧ o.special_charges = .str "")
       ∨ (o.additional_product ∈ standard_charge_names
          ∧ o.charges = .num (standardChargeValue o.additional_product)
          ∧ (o.special_charges = .str ""
             ∨ ∃ z : ℤ, o.special_charges = .num ((z : ℚ) / 100)
                 ∧ 1000 ≤ z ∧ z ≤ 5000)))
      ∧ (o.special_charges ≠ .str "" → ∃ q, o.charges = .num q) := by
  intro o ho
  simp only [generate_orders, List.mem_map, List.mem_range] at ho
  obtain ⟨i, hi, rfl⟩ := ho
  rw [make_order_additional_product, make_order_charges, make_order_special_charges]
  by_cases hadd : pyRandom (g.addChanceDraw i) < 1/10
  · rw [if_pos hadd, if_pos hadd, if_pos hadd]
    have hname : pyChoice standard_charge_names "" (g.chargeDraw i) ∈ standard_charge_names :=
      pyChoice_mem _ _ (by simp [standard_charge_names, STANDARD_CHARGES])
    by_cases hspc : pyRandom (g.specialChanceDraw i) < 3/10
    · rw [if_pos hspc]
      refine ⟨Or.inr ⟨hname, rfl, Or.inr ?_⟩, fun _ => ⟨_, rfl⟩⟩
      refine ⟨round (pyUniform 10 50 (g.specialAmtDraw i) * 10 ^ 2), ?_, ?_, ?_⟩
      · unfold pyRound
        norm_num
      · refine round_intCast_le ?_
        have := le_pyUniform (g.specialAmtDraw i) (show (10:ℚ) ≤ 50 by norm_num)
        push_cast
        nlinarith
      · refine round_le_intCast ?_
        have := pyUniform_le (g.specialAmtDraw i) (show (10:ℚ) ≤ 50 by norm_num)
        push_cast
        nlinarith
    · rw [if_neg hspc]
      exact ⟨Or.inr ⟨hname, rfl, Or.inl rfl⟩, fun _ => ⟨_, rfl⟩⟩
  · rw [if_neg hadd, if_neg hadd, if_neg hadd]
    exact ⟨Or.inl ⟨rfl, rfl, rfl⟩, fun h => absurd rfl h⟩

/-- Witness for C7 at the first order of a one-order February 2024 batch. -/
theorem claim_c7_witness :
    ((firstFebOrder.additional_product = ""
      ∧ firstFebOrder.charges = .str "" ∧ firstFebOrder.special_charges = .str "")
     ∨ (firstFebOrder.additional_product ∈ standard_charge_names
        ∧ firstFebOrder.charges = .num (standardChargeValue firstFebOrder.additional_product)
        ∧ (firstFebOrder.special_charges = .str ""
           ∨ ∃ z : ℤ, firstFebOrder.special_charges = .num ((z : ℚ) / 100)
               ∧ 1000 ≤ z ∧ z ≤ 5000)))
    ∧ (firstFebOrder.special_charges ≠ .str "" → ∃ q, firstFebOrder.charges = .num q) := by
  refine claim_c7_additional_charges [sampleProduct] [sampleCustomer] 2024 2 1 zeroOracle
    firstFebOrder ?_
  simp only [generate_orders, List.mem_map, List.mem_range]
  exact ⟨0, by norm_num, rfl⟩

/-- Counterexample for C8: in `Order.from_row`'s single try block a failure
of one numeric field resets all of them, so a field that parsed
successfully does not keep its value.  In `c8Row` the unit price text
parses to 3.5, but because the total field is unparseable the resulting
order carries unit price 0, contradicting the claim that successfully
parsed numeric fields retain their parsed values. -/
theorem claim_c8_counterexample :
    Cell.toFloat? (Cell.str "3.5") = some (7/2)
    ∧ ∃ o, Order.from_row c8Row = some o ∧ o.unit_price = 0 ∧ o.unit_price ≠ 7/2 := by
  constructor
  · have hp : parseSignedParts? "3.5" = some (false, 3, 5, 1) := by decide
    show (parseSignedParts? "3.5").map partsVal = some (7/2)
    rw [hp]
    show some (partsVal (false, 3, 5, 1)) = some (7/2)
    norm_num [partsVal]
  · refine ⟨_, rfl, rfl, ?_⟩
    show (0 : ℚ) ≠ 7/2
    norm_num

/-- Amended claim C8: for any row with at least the 14 required fields,
`Order.from_row` returns an order without raising; numeric parsing is
all-or-nothing: if any numeric field fails to parse (or is missing), all
numeric fields collectively take their zero-value (or empty) defaults,
and only if every numeric field parses do they all retain their parsed
values. -/
theorem claim_c8_amended (row : List Cell) (h : 14 ≤ row.length) :
    ∃ o, Order.from_row row = some o
      ∧ (parseNumericFields row = none →
          o.unit_price = 0 ∧ o.quantity = 0 ∧ o.charges = .str ""
          ∧ o.special_charges = .str "" ∧ o.total_taxes = 0 ∧ o.total = 0
          ∧ o.exempt_taxes = 0 ∧ o.total_cost = 0 ∧ o.margin_per_gallon = 0)
      ∧ (∀ nf, parseNumericFields row = some nf →
          o.unit_price = nf.unit_price ∧ o.quantity = nf.quantity
          ∧ o.charges = nf.charges ∧ o.special_charges = nf.special_charges
          ∧ o.total_taxes = nf.total_taxes ∧ o.total = nf.total
          ∧ o.exempt_taxes = nf.exempt_taxes ∧ o.total_cost = nf.total_cost
          ∧ o.margin_per_gallon = nf.margin_per_gallon) := by
  unfold Order.from_row
  rw [if_neg (by omega)]
  refine ⟨_, rfl, ?_, ?_⟩
  · intro hn
    simp [hn, defaultNumFields]
  · intro nf hnf
    simp [hnf]

/-- Witness for the amended C8 at the concrete 22-field row. -/
theorem claim_c8_witness :
    ∃ o, Order.from_row c8Row = some o
      ∧ (parseNumericFields c8Row = none →
          o.unit_price = 0 ∧ o.quantity = 0 ∧ o.charges = .str ""
          ∧ o.special_charges = .str "" ∧ o.total_taxes = 0 ∧ o.total = 0
          ∧ o.exempt_taxes = 0 ∧ o.total_cost = 0 ∧ o.margin_per_gallon = 0)
      ∧ (∀ nf, parseNumericFields c8Row = some nf →
          o.unit_price = nf.unit_price ∧ o.quantity = nf.quantity
          ∧ o.charges = nf.charges ∧ o.special_charges = nf.special_charges
          ∧ o.total_taxes = nf.total_taxes ∧ o.total = nf.total
          ∧ o.exempt_taxes = nf.exempt_taxes ∧ o.total_cost = nf.total_cost
          ∧ o.margin_per_gallon = nf.margin_per_gallon) :=
  claim_c8_amended c8Row (by decide)

theorem read_setFile (fs : FileSystem) (path : String) (content : List (List Cell)) :
    FileSystem.read? (FileSystem.setFile fs path content) path = some content := by
  unfold FileSystem.read? FileSystem.setFile
  simp [List.lookup]

/-- Counterexample for C9: a write that fails after one data row leaves a
truncated file holding the header and that row, which is neither absent
nor the complete content — the write of a month's orders file is not
all-or-nothing. -/
theorem claim_c9_counterexample :
    (write_csv [] "orders_2024_02.csv" ["CustomerName"]
      [[Cell.str "r1"], [Cell.str "r2"]] (.failAfterRows 1)).2 = false
    ∧ FileSystem.read? (write_csv [] "orders_2024_02.csv" ["CustomerName"]
        [[Cell.str "r1"], [Cell.str "r2"]] (.failAfterRows 1)).1 "orders_2024_02.csv"
      = some [[Cell.str "CustomerName"], [Cell.str "r1"]]
    ∧ ([[Cell.str "CustomerName"], [Cell.str "r1"]] : List (List Cell))
      ≠ [[Cell.str "CustomerName"], [Cell.str "r1"], [Cell.str "r2"]] := by
  refine ⟨rfl, ?_, by decide⟩
  exact read_setFile [] "orders_2024_02.csv" _

/-- Amended claim C9: a failed write of a month's orders file returns
`False` rather than raising, but it is not all-or-nothing: a failure
before the file is opened leaves the filesystem unchanged, while a
failure after opening leaves a truncated file holding a prefix of the
complete content (the header row plus a prefix of the data rows), since
opening with mode `w` truncates before writing. -/
theorem claim_c9_amended (fs : FileSystem) (path : String) (headers : List String)
    (data : List (List Cell)) (w : WriteOutcome)
    (h : (write_csv fs path headers data w).2 = false) :
    ((write_csv fs path headers data w).1 = fs ∧ w = .failBeforeOpen)
    ∨ ∃ n, FileSystem.read? (write_csv fs path headers data w).1 path
        = some (((headers.map Cell.str) :: data).take n) := by
  cases w with
  | ok => exact Bool.noConfusion h
  | failBeforeOpen => exact Or.inl ⟨rfl, rfl⟩
  | failAfterOpen =>
    refine Or.inr ⟨0, ?_⟩
    exact read_setFile fs path _
  | failAfterRows k =>
    refine Or.inr ⟨k + 1, ?_⟩
    rw [List.take_succ_cons]
    exact read_setFile fs path _

/-- Witness for the amended C9 at a concrete one-row-failure write. -/
theorem claim_c9_witness :
    ((write_csv [] "orders.csv" ["H"] [[Cell.str "a"], [Cell.str "b"]]
        (.failAfterRows 1)).1 = [] ∧ WriteOutcome.failAfterRows 1 = .failBeforeOpen)
    ∨ ∃ n, FileSystem.read? (write_csv [] "orders.csv" ["H"]
        [[Cell.str "a"], [Cell.str "b"]] (.failAfterRows 1)).1 "orders.csv"
        = some ((["H"].map Cell.str :: [[Cell.str "a"], [Cell.str "b"]]).take n) :=
  claim_c9_amended [] "orders.csv" ["H"] [[Cell.str "a"], [Cell.str "b"]]
    (.failAfterRows 1) rfl

/-- Claim C10: `write_csv` is total at its interface: every exception is
caught inside it (the model returns a Boolean for every fault point), it
returns `True` exactly when the header and all data rows were written,
and `False` on any failure. -/
theorem claim_c10_write_csv_total (fs : FileSystem) (path : String)
    (headers : List String) (data : List (List Cell)) (w : WriteOutcome) :
    ((write_csv fs path headers data w).2 = true ↔ w = .ok)
    ∧ (w = .ok → FileSystem.read? (write_csv fs path headers data w).1 path
        = some ((headers.map Cell.str) :: data)) := by
  cases w with
  | ok => exact ⟨⟨fun _ => rfl, fun _ => rfl⟩, fun _ => read_setFile fs path _⟩
  | failBeforeOpen =>
    exact ⟨⟨fun h => Bool.noConfusion h, fun h => WriteOutcome.noConfusion h⟩,
      fun h => WriteOutcome.noConfusion h⟩
  | failAfterOpen =>
    exact ⟨⟨fun h => Bool.noConfusion h, fun h => WriteOutcome.noConfusion h⟩,
      fun h => WriteOutcome.noConfusion h⟩
  | failAfterRows k =>
    exact ⟨⟨fun h => Bool.noConfusion h, fun h => WriteOutcome.noConfusion h⟩,
      fun h => WriteOutcome.noConfusion h⟩

/-- Witness for C10 at a concrete successful write. -/
theorem claim_c10_witness :
    ((write_csv [] "f.csv" ["H"] [[Cell.str "x"]] .ok).2 = true
      ↔ WriteOutcome.ok = .ok)
    ∧ (WriteOutcome.ok = .ok →
        FileSystem.read? (write_csv [] "f.csv" ["H"] [[Cell.str "x"]] .ok).1 "f.csv"
          = some ((["H"].map Cell.str) :: [[Cell.str "x"]])) :=
  claim_c10_write_csv_total [] "f.csv" ["H"] [[Cell.str "x"]] .ok

end DummyData













